import Mathlib

/-!
Shallow embedding of `sqlalchemy_bigquery/_struct.py` (repository
replicahq/pybigquery): the BigQuery STRUCT type descriptor, its
comparator's field-access logic, the struct literal expression, and the
compiler visitors, together with proofs settling the specification claims.

Subtypes (SQLAlchemy `TypeEngine` instances) are modelled by an arbitrary
type `T`; the dialect's type-rendering service is modelled by a function
`T → String`.
-/

/-- A Python `dict` is modelled as an association list in key-insertion
order; inserting an existing key replaces its value in place, keeping the
key's original position, exactly as CPython dicts behave. -/
def dictSet {K V : Type} [DecidableEq K] : List (K × V) → K → V → List (K × V)
  | [], k, v => [(k, v)]
  | (k', v') :: rest, k, v =>
      if k' = k then (k, v) :: rest else (k', v') :: dictSet rest k v

/-- Lookup in the association-list model of a Python `dict`
(`d.get(k)`). -/
def dictGet {K V : Type} [DecidableEq K] : List (K × V) → K → Option V
  | [], _ => none
  | (k', v') :: rest, k => if k' = k then some v' else dictGet rest k

/-- Building a Python `dict` from an ordered sequence of key/value pairs
(a dict comprehension or `dict(pairs)`): later occurrences of a key
overwrite earlier ones. -/
def pyDict {K V : Type} [DecidableEq K] (ps : List (K × V)) : List (K × V) :=
  ps.foldl (fun d p => dictSet d p.1 p.2) []

/-- The value bound to `k` by the LAST pair of `ps` whose key is `k`,
if any: the reference semantics of dict-comprehension overwriting. -/
def lookupLast {K V : Type} [DecidableEq K] : List (K × V) → K → Option V
  | [], _ => none
  | p :: rest, k =>
      match lookupLast rest k with
      | some v => some v
      | none => if p.1 = k then some p.2 else none

/-- Python's `str.lower()`, the case folding used by the STRUCT lookup
dict: lowercase each character. -/
def pyLower (s : String) : String := ⟨s.data.map Char.toLower⟩

/-- Python's `", ".join(...)`: concatenate a sequence of strings with
a comma and a space between consecutive elements. -/
def joinComma : List String → String
  | [] => ""
  | [x] => x
  | x :: y :: xs => x ++ ", " ++ joinComma (y :: xs)

/-- A subtype argument to `STRUCT.__init__`: either a `TypeEngine`
instance, or a no-argument constructor (`isinstance(type_, TypeEngine)`
distinguishes the two in the source). -/
inductive TypeOrCtor (T : Type) where
  | inst : T → TypeOrCtor T
  | ctor : (Unit → T) → TypeOrCtor T

/-- `type_ if isinstance(type_, TypeEngine) else type_()` from
`STRUCT.__init__`. -/
def resolveFieldType {T : Type} : TypeOrCtor T → T
  | .inst t => t
  | .ctor f => f ()

/-- The STRUCT type descriptor: its stored state is the ordered field
sequence `self._STRUCT_fields`. -/
structure STRUCT (T : Type) where
  _STRUCT_fields : List (String × T)
  deriving DecidableEq

/-- `self._STRUCT_byname = {name.lower(): type_ for (name, type_) in
self._STRUCT_fields}`: the case-insensitive lookup dict, computed from
the ordered field sequence at construction. -/
def STRUCT.byname {T : Type} (s : STRUCT T) : List (String × T) :=
  pyDict (s._STRUCT_fields.map fun p => (pyLower p.1, p.2))

/-- `STRUCT.__init__(*fields, **kwfields)`: positional pairs followed by
keyword pairs in the order given (PEP 468 preserves kwarg order), each
subtype instantiated when given as a constructor. -/
def STRUCT.init {T : Type} (fields kwfields : List (String × TypeOrCtor T)) :
    STRUCT T :=
  ⟨(fields ++ kwfields).map fun p => (p.1, resolveFieldType p.2)⟩

/-- An index key passed to `Comparator._setup_getitem`: either a Python
string, or any non-string value carried by its `repr`. -/
inductive PyKey where
  | str : String → PyKey
  | nonstr : String → PyKey

/-- The Python exceptions raised by the field-access paths. -/
inductive PyError where
  | typeError : String → PyError
  | keyError : String → PyError
  | attributeError : String → PyError
  deriving DecidableEq

/-- The operator tag returned by `_setup_getitem` (always
`struct_getitem_op`). -/
inductive SQLOperator where
  | struct_getitem_op : SQLOperator
  deriving DecidableEq

/-- `STRUCT.Comparator._setup_getitem(name)`: rejects non-string keys
with a `TypeError` naming the value, then looks up the case-folded name
in `_STRUCT_byname`, raising `KeyError(name)` when absent; on success
returns the operator tag, the field-name index (a string bind parameter
built by `_field_index`, modelled by the name it binds) and the resolved
subtype. -/
def STRUCT.setup_getitem {T : Type} (s : STRUCT T) (k : PyKey) :
    Except PyError (SQLOperator × String × T) :=
  match k with
  | .nonstr r =>
      .error (.typeError
        ("STRUCT fields can only be accessed with strings field names," ++
          " not " ++ r ++ "."))
  | .str name =>
      match dictGet s.byname (pyLower name) with
      | none => .error (.keyError name)
      | some subtype => .ok (.struct_getitem_op, name, subtype)

/-- `STRUCT.Comparator.__getattr__(name)`: when the case-folded name is
in `_STRUCT_byname`, delegate to indexing (`self[name]`, which runs
`_setup_getitem`), converting a `KeyError` into `AttributeError(name)`;
otherwise raise `AttributeError(name)` directly. -/
def STRUCT.getattr {T : Type} (s : STRUCT T) (name : String) :
    Except PyError (SQLOperator × String × T) :=
  if (dictGet s.byname (pyLower name)).isSome then
    match s.setup_getitem (.str name) with
    | .ok r => .ok r
    | .error (.keyError _) => .error (.attributeError name)
    | .error e => .error e
  else
    .error (.attributeError name)

/-- The subtype component of a successful `_setup_getitem` resolution. -/
def STRUCT.resolvedSubtype {T : Type} (s : STRUCT T) (name : String) :
    Option T :=
  match s.setup_getitem (.str name) with
  | .ok r => some r.2.2
  | .error _ => none

/-- `STRUCT.get_col_spec`: renders `STRUCT<name1 spec1, name2 spec2, ...>`
in declared field order, delegating each subtype's textual form to the
dialect's type compiler (`_get_subtype_col_spec`), modelled by the
parameter `render`. -/
def STRUCT.get_col_spec {T : Type} (render : T → String) (s : STRUCT T) :
    String :=
  "STRUCT<" ++
    joinComma (s._STRUCT_fields.map fun p => p.1 ++ " " ++ render p.2) ++
    ">"

/-- `STRUCT.bind_processor(dialect)` returns Python's `dict` constructor;
bound values are modelled as ordered key/value pair sequences, which
`dict` rebuilds with later duplicate keys overwriting earlier ones. -/
def STRUCT.bind_processor {T V : Type} (_s : STRUCT T) (_dialect : Unit) :
    List (String × V) → List (String × V) :=
  pyDict

/-- The struct literal expression node (`class struct`): its derived
STRUCT type, its optional field tag, and its ordered named clauses
(each clause carrying a name and a type, as in the source's
`clause.name` / `clause.type`). -/
structure structLit (T : Type) where
  type : STRUCT T
  field : Option String
  clauses : List (String × T)

/-- `struct.__init__(clauses, field=None)`: the type is
`STRUCT(**{clause.name: clause.type for clause in clauses})` — a dict
comprehension over the clauses passed as keyword fields — and the field
tag and clause sequence are stored. -/
def struct.init {T : Type} (clauses : List (String × T))
    (field : Option String) : structLit T :=
  { type := STRUCT.init [] ((pyDict clauses).map fun p => (p.1, .inst p.2))
    field := field
    clauses := clauses }

/-- Python truthiness of `element.field` in `visit_struct`: `None` and
the empty string are falsy, any other string is truthy. -/
def pyTruthyField : Option String → Bool
  | none => false
  | some s => s ≠ ""

/-- Expression-tree nodes reaching the two compiler visitors: an opaque
sub-expression rendered by the host framework (its rendering may depend
on the within-columns-clause flag), a `struct_getitem_op` binary node
whose right operand is the bound field-name value, and a struct literal
node with its optional field tag and clause list. -/
inductive SQLExpr where
  | raw : (Bool → String) → SQLExpr
  | getitem : SQLExpr → String → SQLExpr
  | structNode : Option String → List SQLExpr → SQLExpr

mutual

/-- The compiler (`SQLCompiler.visit_struct_getitem_op_binary` and
`SQLCompiler.visit_struct`), parameterised by the host preparer's
`quote_column` and carrying the within-columns-clause flag of `**kw`.
Field access renders the processed left operand, a dot, and the raw
right-operand value; a struct literal with a truthy field tag renders
as the quoted tag alone, and otherwise as `struct(...)` around the
clause list rendered with `within_columns_clause` forced to true. -/
def renderExpr (quote : String → String) : SQLExpr → Bool → String
  | .raw f, wcc => f wcc
  | .getitem left name, wcc => renderExpr quote left wcc ++ "." ++ name
  | .structNode field clauses, _ =>
      if pyTruthyField field then quote (field.getD "")
      else "struct(" ++ renderClauses quote clauses ++ ")"

/-- `visit_clauselist`: the host framework's comma-separated rendering of
the clause list, each clause processed with `within_columns_clause`
forced to true. -/
def renderClauses (quote : String → String) : List SQLExpr → String
  | [] => ""
  | [e] => renderExpr quote e true
  | e :: e' :: es => renderExpr quote e true ++ ", " ++
      renderClauses quote (e' :: es)

end

/-!  Lemmas about the Python-dict model. -/

theorem dictGet_dictSet {K V : Type} [DecidableEq K]
    (d : List (K × V)) (a k : K) (v : V) :
    dictGet (dictSet d a v) k = if a = k then some v else dictGet d k := by
  induction d with
  | nil =>
      simp only [dictSet, dictGet]
  | cons p rest ih =>
      by_cases hpa : p.1 = a
      · simp only [dictSet, if_pos hpa, dictGet]
        by_cases hak : a = k
        · simp [hak]
        · have hpk : ¬ p.1 = k := fun h => hak (by rw [← hpa]; exact h)
          simp [hak, hpk]
      · simp only [dictSet, if_neg hpa, dictGet, ih]
        by_cases hpk : p.1 = k
        · subst hpk
          have : ¬ a = p.1 := fun h => hpa h.symm
          simp [this]
        · simp [hpk]

theorem dictGet_foldl {K V : Type} [DecidableEq K]
    (ps : List (K × V)) (d : List (K × V)) (k : K) :
    dictGet (ps.foldl (fun d p => dictSet d p.1 p.2) d) k =
      match lookupLast ps k with
      | some v => some v
      | none => dictGet d k := by
  induction ps generalizing d with
  | nil => simp [lookupLast]
  | cons p rest ih =>
      simp only [List.foldl_cons, ih, lookupLast]
      cases hrest : lookupLast rest k with
      | some v => rfl
      | none =>
          simp only [dictGet_dictSet]
          by_cases hpk : p.1 = k
          · simp [hpk]
          · simp [hpk]

/-- Lookup in a Python dict built from a pair sequence returns the value
of the last pair carrying the key. -/
theorem dictGet_pyDict {K V : Type} [DecidableEq K]
    (ps : List (K × V)) (k : K) :
    dictGet (pyDict ps) k = lookupLast ps k := by
  unfold pyDict
  rw [dictGet_foldl]
  cases lookupLast ps k with
  | some v => rfl
  | none => rfl

theorem key_mem_dictSet {K V : Type} [DecidableEq K]
    (d : List (K × V)) (a k : K) (v : V) (q : K × V)
    (hq : q ∈ dictSet d a v) : q.1 = a ∨ q ∈ d := by
  induction d with
  | nil =>
      simp only [dictSet, List.mem_singleton] at hq
      subst hq; exact Or.inl rfl
  | cons p rest ih =>
      by_cases hpa : p.1 = a
      · simp only [dictSet, if_pos hpa, List.mem_cons] at hq
        cases hq with
        | inl h => subst h; exact Or.inl rfl
        | inr h => exact Or.inr (List.mem_cons_of_mem p h)
      · simp only [dictSet, if_neg hpa, List.mem_cons] at hq
        cases hq with
        | inl h => exact Or.inr (h ▸ List.mem_cons_self p rest)
        | inr h =>
            cases ih h with
            | inl h' => exact Or.inl h'
            | inr h' => exact Or.inr (List.mem_cons_of_mem p h')

theorem mem_foldl_dictSet {K V : Type} [DecidableEq K]
    (ps : List (K × V)) (d : List (K × V)) (q : K × V)
    (hq : q ∈ ps.foldl (fun d p => dictSet d p.1 p.2) d) :
    q ∈ d ∨ ∃ p ∈ ps, q.1 = p.1 := by
  induction ps generalizing d with
  | nil => exact Or.inl hq
  | cons p rest ih =>
      simp only [List.foldl_cons] at hq
      cases ih (dictSet d p.1 p.2) hq with
      | inl h =>
          cases key_mem_dictSet d p.1 q.1 p.2 q h with
          | inl h' => exact Or.inr ⟨p, List.mem_cons_self p rest, h'⟩
          | inr h' => exact Or.inl h'
      | inr h =>
          obtain ⟨p', hp', hk⟩ := h
          exact Or.inr ⟨p', List.mem_cons_of_mem p hp', hk⟩

/-- Every entry of a Python dict built from a pair sequence carries the
key of some input pair. -/
theorem key_mem_pyDict {K V : Type} [DecidableEq K]
    (ps : List (K × V)) (q : K × V) (hq : q ∈ pyDict ps) :
    ∃ p ∈ ps, q.1 = p.1 := by
  cases mem_foldl_dictSet ps [] q hq with
  | inl h => cases h
  | inr h => exact h

theorem dictSet_append_of_not_mem {K V : Type} [DecidableEq K]
    (d : List (K × V)) (k : K) (v : V) (hk : k ∉ d.map Prod.fst) :
    dictSet d k v = d ++ [(k, v)] := by
  induction d with
  | nil => rfl
  | cons p rest ih =>
      simp only [List.map_cons, List.mem_cons] at hk
      push_neg at hk
      have hpk : ¬ p.1 = k := fun h => hk.1 h.symm
      simp only [dictSet, if_neg hpk, List.cons_append, ih hk.2]

theorem foldl_dictSet_of_disjoint {K V : Type} [DecidableEq K]
    (ps : List (K × V)) : ∀ d : List (K × V),
    (ps.map Prod.fst).Nodup →
    (∀ k ∈ ps.map Prod.fst, k ∉ d.map Prod.fst) →
    ps.foldl (fun d p => dictSet d p.1 p.2) d = d ++ ps := by
  induction ps with
  | nil => intro d _ _; simp
  | cons p rest ih =>
      intro d hnd hdisj
      simp only [List.map_cons, List.nodup_cons] at hnd
      simp only [List.foldl_cons]
      rw [dictSet_append_of_not_mem d p.1 p.2 (hdisj p.1 (by simp))]
      have hdisj' : ∀ k ∈ rest.map Prod.fst,
          k ∉ (d ++ [(p.1, p.2)]).map Prod.fst := by
        intro k hk
        simp only [List.map_append, List.mem_append, List.map_cons,
          List.map_nil, List.mem_singleton]
        push_neg
        exact ⟨hdisj k (by simp [hk]), fun hkp => hnd.1 (hkp ▸ hk)⟩
      rw [ih (d ++ [(p.1, p.2)]) hnd.2 hdisj']
      simp

/-- Building a Python dict from pairs with pairwise-distinct keys keeps
the sequence unchanged. -/
theorem pyDict_eq_self_of_nodup {K V : Type} [DecidableEq K]
    (ps : List (K × V)) (h : (ps.map Prod.fst).Nodup) : pyDict ps = ps := by
  simpa using foldl_dictSet_of_disjoint ps [] h (by simp)

theorem go_eq_joinComma : ∀ (xs : List String) (acc : String),
    String.intercalate.go acc ", " xs = joinComma (acc :: xs) := by
  intro xs
  induction xs with
  | nil => intro acc; rfl
  | cons b bs ih =>
      intro acc
      show String.intercalate.go (acc ++ ", " ++ b) ", " bs = _
      rw [ih (acc ++ ", " ++ b)]
      cases bs with
      | nil => rfl
      | cons c cs => simp [joinComma, String.append_assoc]

/-- The Python-join model agrees with the library's comma-space
intercalation. -/
theorem joinComma_eq_intercalate (l : List String) :
    joinComma l = String.intercalate ", " l := by
  cases l with
  | nil => rfl
  | cons x xs => exact (go_eq_joinComma xs x).symm

/-- The clause-list rendering is the comma-space join of the clauses
rendered with the within-columns-clause flag forced to true. -/
theorem renderClauses_eq_joinComma (quote : String → String)
    (cs : List SQLExpr) :
    renderClauses quote cs =
      joinComma (cs.map fun e => renderExpr quote e true) := by
  induction cs with
  | nil => rfl
  | cons e es ih =>
      cases es with
      | nil => rfl
      | cons e' es' =>
          simp only [renderClauses, ih, List.map_cons, joinComma]

/-- A tiny concrete universe of subtypes used to instantiate the
general theorems at concrete inputs. -/
inductive SQLType where
  | int64 : SQLType
  | string : SQLType
  deriving DecidableEq

/-!  Claim theorems. -/

/-- C1: field resolution on a STRUCT type descriptor is
case-insensitive: for any two names with the same case-folded form, one
of which case-folds to a declared (case-folded) field name, the
comparator's getitem setup resolves both to the same subtype. -/
theorem C1_getitem_case_insensitive {T : Type} (s : STRUCT T)
    (n1 n2 : String) (hfold : pyLower n1 = pyLower n2) (t : T)
    (hdecl : dictGet s.byname (pyLower n1) = some t) :
    s.resolvedSubtype n1 = s.resolvedSubtype n2 ∧
    s.resolvedSubtype n1 = some t := by
  have h2 : dictGet s.byname (pyLower n2) = some t := by
    rw [← hfold]; exact hdecl
  simp [STRUCT.resolvedSubtype, STRUCT.setup_getitem, hdecl, h2]

/-- C1 witness: resolving `"Foo"` and `"foo"` against a descriptor
declared with field `foo` yields the same subtype. -/
theorem C1_witness :
    (STRUCT.mk [("foo", SQLType.int64)]).resolvedSubtype "Foo" =
      (STRUCT.mk [("foo", SQLType.int64)]).resolvedSubtype "foo" ∧
    (STRUCT.mk [("foo", SQLType.int64)]).resolvedSubtype "Foo" =
      some SQLType.int64 :=
  C1_getitem_case_insensitive (STRUCT.mk [("foo", SQLType.int64)])
    "Foo" "foo" (by decide) SQLType.int64 (by decide)

/-- C2: indexing a STRUCT descriptor with a non-string key fails with a
type error naming the offending value; the result does not depend on the
descriptor (the string-type check runs before any field lookup), and it
is never a lookup (key-not-found) error. -/
theorem C2_nonstring_key_type_error {T : Type} (s s' : STRUCT T)
    (r : String) :
    s.setup_getitem (.nonstr r) =
      .error (.typeError
        ("STRUCT fields can only be accessed with strings field names, not "
          ++ r ++ ".")) ∧
    s.setup_getitem (.nonstr r) = s'.setup_getitem (.nonstr r) ∧
    ∀ k, s.setup_getitem (.nonstr r) ≠ .error (.keyError k) := by
  refine ⟨rfl, rfl, fun k h => ?_⟩
  simp only [STRUCT.setup_getitem] at h
  cases h

/-- C2 witness: indexing any descriptor with the integer key `0`
(repr `"0"`) yields the type error naming `0`, and differs from every
key error. -/
theorem C2_witness :
    (STRUCT.mk [("foo", SQLType.int64)]).setup_getitem (.nonstr "0") =
      .error (.typeError
        ("STRUCT fields can only be accessed with strings field names, not "
          ++ "0" ++ ".")) ∧
    (STRUCT.mk [("foo", SQLType.int64)]).setup_getitem (.nonstr "0") ≠
      .error (.keyError "0") :=
  ⟨(C2_nonstring_key_type_error (STRUCT.mk [("foo", SQLType.int64)])
      (STRUCT.mk []) "0").1,
    (C2_nonstring_key_type_error (STRUCT.mk [("foo", SQLType.int64)])
      (STRUCT.mk []) "0").2.2 "0"⟩

/-- C3: for a string name whose case-folded form is absent from the
descriptor's mapping, indexing-style access fails with a key error
carrying the original (non-folded) name, while attribute-style access
fails with an attribute error carrying the name. -/
theorem C3_absent_name_error_kinds {T : Type} (s : STRUCT T)
    (name : String) (habs : dictGet s.byname (pyLower name) = none) :
    s.setup_getitem (.str name) = .error (.keyError name) ∧
    s.getattr name = .error (.attributeError name) := by
  constructor
  · simp only [STRUCT.setup_getitem, habs]
  · simp only [STRUCT.getattr, habs, Option.isSome_none, Bool.false_eq_true,
      if_false]

/-- C3 witness: on a descriptor with field `foo`, indexing with the
absent name `Bar` raises `KeyError "Bar"` and attribute access raises
`AttributeError "Bar"`. -/
theorem C3_witness :
    (STRUCT.mk [("foo", SQLType.int64)]).setup_getitem (.str "Bar") =
      .error (.keyError "Bar") ∧
    (STRUCT.mk [("foo", SQLType.int64)]).getattr "Bar" =
      .error (.attributeError "Bar") :=
  C3_absent_name_error_kinds (STRUCT.mk [("foo", SQLType.int64)]) "Bar"
    (by decide)

/-- C4 counterexample: a struct literal built from two clauses that share
the name `a` does NOT keep both (name, type) pairs — the keyword-dict
comprehension in `struct.__init__` collapses them to a single field. -/
theorem C4_counterexample :
    (struct.init [("a", SQLType.int64), ("a", SQLType.string)] none
      ).type._STRUCT_fields ≠
      [("a", SQLType.int64), ("a", SQLType.string)] := by
  decide

/-- C4 (amended): the derived descriptor's field list is the dict
comprehension of the clauses' (name, type) pairs — duplicate-named
clauses are collapsed to one field at the first occurrence's position
carrying the last occurrence's type; when the clause names are pairwise
distinct, the field list is exactly the clause pairs in clause order. -/
theorem C4_amended_field_list {T : Type} (clauses : List (String × T))
    (field : Option String) :
    (struct.init clauses field).type._STRUCT_fields = pyDict clauses ∧
    ((clauses.map Prod.fst).Nodup →
      (struct.init clauses field).type._STRUCT_fields = clauses) := by
  have h1 : (struct.init clauses field).type._STRUCT_fields =
      pyDict clauses := by
    simp only [struct.init, STRUCT.init, List.nil_append, List.map_map]
    have hcomp : ((fun p : String × TypeOrCtor T =>
        (p.1, resolveFieldType p.2)) ∘
        fun p : String × T => (p.1, TypeOrCtor.inst p.2)) = id := by
      funext p
      simp [Function.comp, resolveFieldType]
    rw [hcomp, List.map_id]
  exact ⟨h1, fun hnd => h1.trans (pyDict_eq_self_of_nodup clauses hnd)⟩

/-- C4 witness: with distinct clause names `a`, `b` the derived field
list is exactly the clause pairs in order. -/
theorem C4_amended_witness :
    (struct.init [("a", SQLType.int64), ("b", SQLType.string)] none
      ).type._STRUCT_fields =
      [("a", SQLType.int64), ("b", SQLType.string)] :=
  (C4_amended_field_list [("a", SQLType.int64), ("b", SQLType.string)]
    none).2 (by decide)

/-- C5: the case-insensitive mapping of a descriptor is exactly the
case-folded projection of the ordered field sequence — looking up any
key returns the subtype of the LAST field whose case-folded name is that
key, every mapping entry's key is the case-folded name of some declared
field, and the ordered field sequence itself is stored unchanged
(duplicates retained). -/
theorem C5_byname_case_folded_projection {T : Type}
    (fields : List (String × T)) :
    (∀ k, dictGet (STRUCT.mk fields).byname k =
        lookupLast (fields.map fun p => (pyLower p.1, p.2)) k) ∧
    (∀ q ∈ (STRUCT.mk fields).byname, ∃ p ∈ fields, q.1 = pyLower p.1) ∧
    (STRUCT.mk fields)._STRUCT_fields = fields := by
  refine ⟨fun k => dictGet_pyDict _ k, fun q hq => ?_, rfl⟩
  obtain ⟨p', hp', hk⟩ :=
    key_mem_pyDict (fields.map fun p => (pyLower p.1, p.2)) q
      (by simpa [STRUCT.byname] using hq)
  obtain ⟨p, hp, rfl⟩ := List.mem_map.mp hp'
  exact ⟨p, hp, hk⟩

/-- C5 witness: with fields `Foo` then `FOO`, lookup of the case-folded
key `foo` returns the LATER field's subtype while the ordered field
sequence retains both entries. -/
theorem C5_witness :
    dictGet (STRUCT.mk [("Foo", SQLType.int64), ("FOO", SQLType.string)]
      ).byname "foo" = some SQLType.string ∧
    (STRUCT.mk [("Foo", SQLType.int64), ("FOO", SQLType.string)]
      )._STRUCT_fields =
      [("Foo", SQLType.int64), ("FOO", SQLType.string)] :=
  ⟨((C5_byname_case_folded_projection
      [("Foo", SQLType.int64), ("FOO", SQLType.string)]).1 "foo").trans
      (by decide),
    (C5_byname_case_folded_projection
      [("Foo", SQLType.int64), ("FOO", SQLType.string)]).2.2⟩

/-- C6: the stored ordered field sequence is the positional pairs
followed by the keyword pairs in the order given; a subtype supplied as
a no-argument constructor is replaced by the result of calling it, and
an instance is stored unchanged. -/
theorem C6_init_field_order {T : Type}
    (fields kwfields : List (String × TypeOrCtor T)) :
    (STRUCT.init fields kwfields)._STRUCT_fields =
      fields.map (fun p => (p.1, resolveFieldType p.2)) ++
        kwfields.map (fun p => (p.1, resolveFieldType p.2)) ∧
    (∀ t : T, resolveFieldType (TypeOrCtor.inst t) = t) ∧
    (∀ f : Unit → T, resolveFieldType (TypeOrCtor.ctor f) = f ()) := by
  refine ⟨?_, fun t => rfl, fun f => rfl⟩
  simp [STRUCT.init]

/-- C7: the column specification is exactly `STRUCT<` followed by the
comma-space intercalation of `<field name> <rendered subtype>` entries in
declared field order, followed by `>`; instantiated at a two-field
descriptor the rendered subtypes appear in declaration order between the
fixed wrapping. -/
theorem C7_get_col_spec_wrapping {T : Type} (render : T → String)
    (s : STRUCT T) (a b : String) (ta tb : T) :
    STRUCT.get_col_spec render s =
      "STRUCT<" ++ String.intercalate ", "
        (s._STRUCT_fields.map fun p => p.1 ++ " " ++ render p.2) ++ ">" ∧
    STRUCT.get_col_spec render (STRUCT.mk [(a, ta), (b, tb)]) =
      "STRUCT<" ++ a ++ " " ++ render ta ++ ", " ++ b ++ " " ++
        render tb ++ ">" := by
  constructor
  · rw [STRUCT.get_col_spec, joinComma_eq_intercalate]
  · simp [STRUCT.get_col_spec, joinComma, String.append_assoc]

/-- C8: the struct visitor renders a node with a truthy (non-empty)
field tag as the quoted tag alone, ignoring the clause list entirely
(the same string results for any clause list and flag); a node with a
falsy tag renders as `struct(` followed by the comma-space join of the
clauses rendered with within-columns-clause forced to true, followed by
`)`; a tagless empty-clause node renders exactly as `struct()`. -/
theorem C8_visit_struct (quote : String → String) (f : String)
    (clauses clauses' : List SQLExpr) (field : Option String)
    (wcc wcc' : Bool) (hf : f ≠ "")
    (hfalsy : pyTruthyField field = false) :
    renderExpr quote (.structNode (some f) clauses) wcc = quote f ∧
    renderExpr quote (.structNode (some f) clauses) wcc =
      renderExpr quote (.structNode (some f) clauses') wcc' ∧
    renderExpr quote (.structNode field clauses) wcc =
      "struct(" ++
        joinComma (clauses.map fun e => renderExpr quote e true) ++ ")" ∧
    renderExpr quote (.structNode none []) wcc = "struct()" := by
  have htruthy : pyTruthyField (some f) = true := by
    simp [pyTruthyField, hf]
  refine ⟨?_, ?_, ?_, rfl⟩
  · simp [renderExpr, htruthy]
  · simp [renderExpr, htruthy]
  · simp [renderExpr, hfalsy, renderClauses_eq_joinComma]

/-- C8 witness: a struct node tagged `x` renders as the quoted tag alone
even with a non-empty clause list, and a tagless empty-clause node
renders as `struct()`. -/
theorem C8_witness :
    renderExpr (fun s => "q(" ++ s ++ ")")
      (.structNode (some "x") [.raw fun _ => "1 AS a"]) true = "q(x)" ∧
    renderExpr (fun s => "q(" ++ s ++ ")") (.structNode none []) true =
      "struct()" := by
  have h := C8_visit_struct (fun s => "q(" ++ s ++ ")") "x"
    [.raw fun _ => "1 AS a"] [] none true true (by decide) (by decide)
  exact ⟨h.1, h.2.2.2⟩

/-- C9: a field-access binary node renders as the recursive rendering of
its left operand, a single dot, and the raw right-operand field name
with no quoting applied; in particular a node whose left renders as
`t.col` with field name `f` renders as `t.col.f`. -/
theorem C9_visit_getitem (quote : String → String) (l : SQLExpr)
    (name : String) (wcc : Bool) :
    renderExpr quote (.getitem l name) wcc =
      renderExpr quote l wcc ++ "." ++ name ∧
    renderExpr quote (.getitem (.raw fun _ => "t.col") "f") wcc =
      "t.col.f" :=
  ⟨rfl, rfl⟩

/-- C10: the STRUCT bind-value processor is Python's `dict` constructor
for every dialect and every descriptor: the processed value is
`dict(value)`, identical across descriptors (no validation against the
declared fields), and a value whose keys are pairwise distinct passes
through unchanged. -/
theorem C10_bind_processor_is_dict {T V : Type} (s s' : STRUCT T)
    (v : List (String × V)) (hnodup : (v.map Prod.fst).Nodup) :
    STRUCT.bind_processor s () v = pyDict v ∧
    STRUCT.bind_processor s () v = STRUCT.bind_processor s' () v ∧
    STRUCT.bind_processor s () v = v :=
  ⟨rfl, rfl, pyDict_eq_self_of_nodup v hnodup⟩

/-- C10 witness: a bound value whose key `zzz` matches no declared field
passes through the processor unchanged — no validation occurs. -/
theorem C10_witness :
    STRUCT.bind_processor (STRUCT.mk [("a", SQLType.int64)]) ()
      [("zzz", SQLType.string)] = [("zzz", SQLType.string)] :=
  (C10_bind_processor_is_dict (STRUCT.mk [("a", SQLType.int64)])
    (STRUCT.mk []) [("zzz", SQLType.string)] (by decide)).2.2
